import Mathlib

/-!
Shallow embedding of the Terraform coverage auditor
(`src/tf_mcp_server/tools/coverage_auditor.py`): the `ResourceMatcher`
string helpers and matching algorithm, and the `CoverageAuditor`
report/orchestration layer.

Python strings are modelled as lists of code points (`List Nat`); the
Python string methods used by the source (`lower`, `upper`, `strip`,
`rstrip('/')`, `split`, `replace`, substring containment) are given
explicit ASCII-faithful definitions below.
-/

namespace CoverageAuditor

/-- A Python string, as its list of code points. -/
abbrev PyStr := List Nat

/-- Embed a Lean string literal as a `PyStr`. -/
def S (s : String) : PyStr := s.data.map (fun c => c.toNat)

/-- Python `str.lower()` on one code point (ASCII range, as exercised by the code). -/
def lowerChar (c : Nat) : Nat := if 65 ≤ c ∧ c ≤ 90 then c + 32 else c

/-- Python `str.upper()` on one code point, as the list of code points it
maps to: a-z map to A-Z, and U+00DF (ß, the non-ASCII letter exercised
below) has the Unicode full case mapping "SS" — Python upper-casing can
expand one character into several. Other code points are left unchanged
(enough of the Unicode table for the strings this development evaluates). -/
def upperCharStr (c : Nat) : List Nat :=
  if 97 ≤ c ∧ c ≤ 122 then [c - 32]
  else if c = 223 then [83, 83]
  else [c]

/-- Python `s.lower()`. -/
def pyLower (s : PyStr) : PyStr := s.map lowerChar

/-- Python `s.upper()`: the concatenation of the per-code-point case
mappings. -/
def pyUpper (s : PyStr) : PyStr := s.flatMap upperCharStr

/-- Membership in `[a-z0-9]`: the characters kept by the regex
`re.sub(r'[^a-z0-9]', '', ...)` in `normalize_resource_name`. -/
def isLowerAlnum (c : Nat) : Bool := (97 ≤ c && c ≤ 122) || (48 ≤ c && c ≤ 57)

/-- Source `ResourceMatcher.normalize_resource_name`:
`re.sub(r'[^a-z0-9]', '', name.lower())`. -/
def normalize_resource_name (s : PyStr) : PyStr := (pyLower s).filter isLowerAlnum

theorem lowerChar_of_isLowerAlnum {c : Nat} (h : isLowerAlnum c = true) :
    lowerChar c = c := by
  simp [isLowerAlnum] at h
  simp only [lowerChar]
  split <;> omega

theorem isLowerAlnum_lowerChar_of_isLowerAlnum {c : Nat} (h : isLowerAlnum c = true) :
    isLowerAlnum (lowerChar c) = true := by
  rw [lowerChar_of_isLowerAlnum h]; exact h

theorem normalize_append (l1 l2 : PyStr) :
    normalize_resource_name (l1 ++ l2) =
      normalize_resource_name l1 ++ normalize_resource_name l2 := by
  simp [normalize_resource_name, pyLower]

theorem normalize_upperCharStr {c : Nat} (h : c < 128) :
    normalize_resource_name (upperCharStr c) = normalize_resource_name [c] := by
  unfold upperCharStr
  split
  · have h1 : lowerChar (c - 32) = c := by unfold lowerChar; split <;> omega
    have h2 : lowerChar c = c := by unfold lowerChar; split <;> omega
    have h3 : isLowerAlnum c = true := by simp only [isLowerAlnum]; simp; omega
    simp [normalize_resource_name, pyLower, h1, h2, h3]
  · split
    · omega
    · rfl

theorem normalize_idem (s : PyStr) :
    normalize_resource_name (normalize_resource_name s) = normalize_resource_name s := by
  induction s with
  | nil => rfl
  | cons c rest ih =>
    simp only [normalize_resource_name, pyLower, List.map_cons, List.filter_cons]
    by_cases h : isLowerAlnum (lowerChar c) = true
    · simp only [h, if_pos, List.map_cons, List.filter_cons,
        lowerChar_of_isLowerAlnum h, h]
      simp only [normalize_resource_name, pyLower] at ih
      simp [ih]
    · simp only [h]
      simp only [normalize_resource_name, pyLower] at ih
      simp [ih, h]

theorem normalize_upper_ascii (s : PyStr) (h : ∀ c ∈ s, c < 128) :
    normalize_resource_name (pyUpper s) = normalize_resource_name s := by
  induction s with
  | nil => rfl
  | cons c rest ih =>
    have hc : c < 128 := h c (List.mem_cons_self ..)
    have hrest := ih (fun x hx => h x (List.mem_cons_of_mem _ hx))
    have hcons : pyUpper (c :: rest) = upperCharStr c ++ pyUpper rest := by
      simp [pyUpper]
    have hcons2 : (c :: rest : PyStr) = [c] ++ rest := rfl
    rw [hcons, normalize_append, normalize_upperCharStr hc, hrest, hcons2,
      normalize_append]

theorem mem_normalize_isLowerAlnum (s : PyStr) (c : Nat)
    (h : c ∈ normalize_resource_name s) : isLowerAlnum c = true := by
  simp only [normalize_resource_name] at h
  exact (List.mem_filter.mp h).2

/-- Python `s.rstrip('/')` (47 is the code point of a slash). -/
def rstripSlash (s : PyStr) : PyStr := (s.reverse.dropWhile (fun c => c == 47)).reverse

/-- The normalisation both sides of the identifier index go through:
`azure_id.lower().rstrip('/')` / `resource_id.lower().rstrip('/')`. -/
def normId (s : PyStr) : PyStr := rstripSlash (pyLower s)

/-- Python `s.split(sep)` for a single-character separator: always returns at
least one (possibly empty) part. -/
def splitOnChar (sep : Nat) : PyStr → List PyStr
  | [] => [[]]
  | c :: rest =>
    let r := splitOnChar sep rest
    if c == sep then [] :: r
    else
      match r with
      | [] => [[c]]
      | h :: t => (c :: h) :: t

/-- Source `ResourceMatcher.extract_resource_name_from_id`: empty id gives `""`,
otherwise the last `/`-separated segment (`parts[-1] if parts else ""`). -/
def extract_resource_name_from_id (rid : PyStr) : PyStr :=
  if rid = [] then []
  else ((splitOnChar 47 rid).getLast?).getD []

/-- Source `ResourceMatcher.parse_terraform_address`: split on `.` (46); with at
least two parts return `(parts[0], '.'.join(parts[1:]))`, else `("", "")`. -/
def parse_terraform_address (addr : PyStr) : PyStr × PyStr :=
  match splitOnChar 46 addr with
  | t :: h :: rest => (t, List.intercalate [46] (h :: rest))
  | _ => ([], [])

/-- Does `pat` occur at the head of `s`? (helper for Python `in` / `replace`). -/
def strHasAt : PyStr → PyStr → Bool
  | [], _ => true
  | _ :: _, [] => false
  | p :: ps, c :: cs => p == c && strHasAt ps cs

/-- Python substring containment `pat in hay`. -/
def strHasSub : PyStr → PyStr → Bool
  | [], pat => strHasAt pat []
  | c :: rest, pat => strHasAt pat (c :: rest) || strHasSub rest pat

/-- The pattern removed by `.replace('microsoft.', '')` (10 characters). -/
def msToken : PyStr := S "microsoft."

/-- Python `s.replace('microsoft.', '')`, fuelled so that the recursion is
structural: each step consumes at least one character, so fuel equal to the
string length is always enough and the out-of-fuel case is unreachable. -/
def removeMSFuel : Nat → PyStr → PyStr
  | 0, _ => []
  | _ + 1, [] => []
  | fuel + 1, c :: rest =>
    if strHasAt msToken (c :: rest) then
      -- skip the whole 10-character match: (c :: rest).drop 10 = rest.drop 9
      removeMSFuel fuel (rest.drop 9)
    else c :: removeMSFuel fuel rest

/-- Python `s.replace('microsoft.', '')`: left-to-right non-overlapping
removal of every occurrence of the 10-character pattern. -/
def removeMS (s : PyStr) : PyStr := removeMSFuel s.length s

/-- Source `resource_type.lower().replace('microsoft.', '').replace('/', '')`:
the type token used by the name-with-type-hint tie-break. -/
def simplifyAzureType (t : PyStr) : PyStr :=
  (removeMS (pyLower t)).filter (fun c => !(c == 47))

/-- One value of the `tf_resource_details` dictionary built by
`get_state_resource_details` (the fields `match_resources` reads). -/
structure TfDetails where
  terraform_type : PyStr
  terraform_name : PyStr
  azure_resource_id : PyStr
  normalized_name : PyStr
deriving DecidableEq, Repr

/-- The `tf_resource_details` dictionary, as an association list keyed by
Terraform address (a Python dict: keys are unique). -/
abbrev DetailMap := List (PyStr × TfDetails)

/-- One Azure resource descriptor from the ARG query (the fields
`match_resources` reads). -/
structure AzureResource where
  id : PyStr
  type : PyStr
  location : PyStr
deriving DecidableEq, Repr

/-- One entry of the `matched` list built in `match_resources`. -/
structure MatchedEntry where
  azure_resource_id : PyStr
  azure_resource_type : PyStr
  azure_resource_name : PyStr
  terraform_address : PyStr
  terraform_type : PyStr
  match_confidence : PyStr
  match_method : PyStr
deriving DecidableEq, Repr

/-- One entry of the `missing` list built in `match_resources`. -/
structure MissingEntry where
  resource_id : PyStr
  resource_type : PyStr
  resource_name : PyStr
  location : PyStr
  reason : PyStr
deriving DecidableEq, Repr

/-- One entry of the `orphaned` list built in `match_resources`. -/
structure OrphanedEntry where
  terraform_address : PyStr
  terraform_type : PyStr
  terraform_name : PyStr
  reason : PyStr
deriving DecidableEq, Repr

/-- One step of building `azure_id_to_tf`: a detail entry with a non-empty
`azure_resource_id` is keyed by its normalised id. New pairs are prepended
so that a first-hit lookup realises the dict overwrite semantics (a later
entry with the same key wins). -/
def idIndexStep (acc : List (PyStr × PyStr)) (p : PyStr × TfDetails) : List (PyStr × PyStr) :=
  if p.2.azure_resource_id ≠ [] then (normId p.2.azure_resource_id, p.1) :: acc else acc

/-- The `azure_id_to_tf` dictionary: built by iterating
`tf_resource_details.items()` over entries with a non-empty
`azure_resource_id`. -/
def buildIdIndex (details : DetailMap) : List (PyStr × PyStr) :=
  details.foldl idIndexStep []

/-- The candidate list `normalized_name_to_tf[nname]`: addresses of the detail
entries whose non-empty `normalized_name` equals `nname`, in dictionary
iteration order. The key `nname` is present in the dict iff this list is
non-empty. -/
def candidatesFor (details : DetailMap) (nname : PyStr) : List PyStr :=
  details.filterMap
    (fun p => if p.2.normalized_name ≠ [] ∧ p.2.normalized_name = nname then some p.1 else none)

/-- Source `tf_resource_details[addr].terraform_type` (total, defaulting to `""`;
every lookup the source performs is at a key known to be present). -/
def detailType (details : DetailMap) (addr : PyStr) : PyStr :=
  match List.lookup addr details with
  | some d => d.terraform_type
  | none => []

/-- Match method strings. -/
def methodAzureId : PyStr := S "azure_id"

def methodName : PyStr := S "name"

def methodNameTypeHint : PyStr := S "name_with_type_hint"

def methodNameAmbiguous : PyStr := S "name_ambiguous"

/-- The per-live-resource strategy block of `match_resources` (lines 289-319):
the value of `(matched_tf_address, match_method)` after the two strategies ran;
`none` means both stayed `None`. Strategy 1 looks the normalised live id up in
`azure_id_to_tf`; otherwise strategy 2 consults the name candidates, with the
type-hint tie-break and the `if not matched_tf_address` fallback (which also
fires when the found candidate is the falsy empty string). -/
def strategyMatch (details : DetailMap) (r : AzureResource) : Option (PyStr × PyStr) :=
  match List.lookup (normId r.id) (buildIdIndex details) with
  | some a => some (a, methodAzureId)
  | none =>
    match candidatesFor details (normalize_resource_name (extract_resource_name_from_id r.id)) with
    | [] => none
    | [c] => some (c, methodName)
    | c0 :: c1 :: rest =>
      match (c0 :: c1 :: rest).find?
          (fun c => strHasSub (pyLower (detailType details c)) (simplifyAzureType r.type)) with
      | some c => if c ≠ [] then some (c, methodNameTypeHint) else some (c0, methodNameAmbiguous)
      | none => some (c0, methodNameAmbiguous)

/-- The matched-entry dictionary appended at lines 323-331. -/
def mkMatchedEntry (details : DetailMap) (r : AzureResource) (a m : PyStr) : MatchedEntry :=
  { azure_resource_id := r.id
    azure_resource_type := r.type
    azure_resource_name := extract_resource_name_from_id r.id
    terraform_address := a
    terraform_type := detailType details a
    match_confidence := if m = methodAzureId then S "high" else S "medium"
    match_method := m }

/-- The missing-entry dictionary appended at lines 335-341. -/
def mkMissingEntry (r : AzureResource) : MissingEntry :=
  { resource_id := r.id
    resource_type := r.type
    resource_name := extract_resource_name_from_id r.id
    location := r.location
    reason := S "Not found in Terraform state" }

/-- The loop state of `match_resources`: the `matched` and `missing` lists and
the `matched_terraform` set (modelled as a duplicate-free list). -/
structure MatchState where
  matched : List MatchedEntry
  missing : List MissingEntry
  matchedSet : List PyStr
deriving DecidableEq, Repr

/-- Source `matched_terraform.add(a)`. -/
def setAdd (s : List PyStr) (a : PyStr) : List PyStr := if a ∈ s then s else a :: s

/-- One iteration of the `for azure_resource in azure_resources` loop:
`if matched_tf_address:` (truthiness, so the empty string also falls through
to `missing`) appends a matched entry and records the address, else appends
a missing entry. -/
def processOne (details : DetailMap) (st : MatchState) (r : AzureResource) : MatchState :=
  match strategyMatch details r with
  | some (a, m) =>
    if a ≠ [] then
      { st with
        matched := st.matched ++ [mkMatchedEntry details r a m]
        matchedSet := setAdd st.matchedSet a }
    else { st with missing := st.missing ++ [mkMissingEntry r] }
  | none => { st with missing := st.missing ++ [mkMissingEntry r] }

/-- The whole matching loop over `azure_resources`. -/
def runMatch (azure_resources : List AzureResource) (details : DetailMap) : MatchState :=
  azure_resources.foldl (processOne details) ⟨[], [], []⟩

/-- The orphaned-entry dictionary appended at lines 348-353. -/
def mkOrphanedEntry (addr : PyStr) : OrphanedEntry :=
  { terraform_address := addr
    terraform_type := (parse_terraform_address addr).1
    terraform_name := (parse_terraform_address addr).2
    reason := S "Resource not found in Azure or could not be matched" }

/-- The result triple of `ResourceMatcher.match_resources`. -/
structure MatchResult where
  matched : List MatchedEntry
  missing : List MissingEntry
  orphaned : List OrphanedEntry
deriving DecidableEq, Repr

/-- Source `ResourceMatcher.match_resources` (the pure matching pass, with the state
details already fetched into `details`): runs the per-resource loop, then
classifies every address of `terraform_resource_addresses` not in
`matched_terraform` as orphaned. -/
def match_resources (azure_resources : List AzureResource) (details : DetailMap)
    (terraform_resource_addresses : List PyStr) : MatchResult :=
  let st := runMatch azure_resources details
  { matched := st.matched
    missing := st.missing
    orphaned := (terraform_resource_addresses.filter (fun a => a ∉ st.matchedSet)).map
      mkOrphanedEntry }

/-- Python `round(x, 2)` on the coverage value, over exact rationals:
round to the nearest multiple of 1/100. -/
def round2 (q : ℚ) : ℚ := (round (q * 100) : ℤ) / 100

/-- The four recommendation strings of `_generate_report`, abstracted to
their kind plus the count they interpolate:
`exportMissing n` = "Export {n} unmanaged resources using aztfexport tools",
`reviewOrphaned n` = "Review {n} orphaned resources in Terraform state - …",
`manualReview` = "Some resources could not be automatically matched. …",
`allManaged` = "Excellent! All Azure resources in scope are managed by Terraform.". -/
inductive Recommendation where
  | exportMissing (n : Nat)
  | reviewOrphaned (n : Nat)
  | manualReview
  | allManaged
deriving DecidableEq, Repr

/-- The `summary` block of the report. -/
structure Summary where
  total_azure_resources : Nat
  total_terraform_resources : Nat
  terraform_managed : Nat
  coverage_percentage : ℚ
  missing_from_terraform : Nat
  orphaned_in_terraform : Nat
deriving DecidableEq, Repr

/-- The string `f"Use export_azure_resource with resource_id='{rid}'"`. -/
def exportCommand (rid : PyStr) : PyStr :=
  S "Use export_azure_resource with resource_id='" ++ rid ++ S "'"

/-- The report dictionary returned by `_generate_report` (`success` is the
constant `True`; each missing entry is paired with its `export_command`). -/
structure Report where
  summary : Summary
  managed_resources : List MatchedEntry
  missing_resources : List (MissingEntry × PyStr)
  orphaned_resources : List OrphanedEntry
  recommendations : List Recommendation
deriving DecidableEq, Repr

/-- Source `CoverageAuditor._generate_report`: the unrounded coverage percentage
(`len(matched) / total_azure * 100`, or 0 when `total_azure == 0`) drives the
recommendation conditions; the summary stores `round(coverage, 2)`. -/
def generate_report (matched : List MatchedEntry) (missing : List MissingEntry)
    (orphaned : List OrphanedEntry) (total_azure total_terraform : Nat) : Report :=
  let coverage_percentage : ℚ :=
    if total_azure > 0 then (matched.length : ℚ) / (total_azure : ℚ) * 100 else 0
  let recommendations : List Recommendation :=
    (if missing ≠ [] then [.exportMissing missing.length] else []) ++
    (if orphaned ≠ [] then [.reviewOrphaned orphaned.length] else []) ++
    (if coverage_percentage < 100 ∧ missing = [] then [.manualReview] else []) ++
    (if coverage_percentage = 100 then [.allManaged] else [])
  { summary :=
      { total_azure_resources := total_azure
        total_terraform_resources := total_terraform
        terraform_managed := matched.length
        coverage_percentage := round2 coverage_percentage
        missing_from_terraform := missing.length
        orphaned_in_terraform := orphaned.length }
    managed_resources := matched
    missing_resources := missing.map (fun m => (m, exportCommand m.resource_id))
    orphaned_resources := orphaned
    recommendations := recommendations }

/-- The outcome of one external command (`execute_terraform_command`):
exit code plus captured streams. -/
structure CommandResult where
  exit_code : Int
  stdout : PyStr
  stderr : PyStr

/-- The ASCII whitespace stripped by Python `str.strip()`. -/
def isPySpace (c : Nat) : Bool :=
  c == 32 || c == 9 || c == 10 || c == 13 || c == 11 || c == 12

/-- Python `s.strip()`. -/
def pyStrip (s : PyStr) : PyStr :=
  ((s.dropWhile isPySpace).reverse.dropWhile isPySpace).reverse

/-- Source `CoverageAuditor._get_terraform_state_resources`, as a function of the
outcome of the `terraform state list` command: `None` on a non-zero exit
code, else the stripped non-empty lines of stdout. -/
def get_terraform_state_resources (result : CommandResult) : Option (List PyStr) :=
  if result.exit_code ≠ 0 then none
  else some (((splitOnChar 10 result.stdout).map pyStrip).filter (fun l => l ≠ []))

/-- The result of `audit_coverage`: either the error dictionary
(`success = False` plus the message) or the report (`success = True`). -/
inductive AuditOutcome where
  | failure (error : PyStr)
  | success (report : Report)
deriving DecidableEq, Repr

/-- Source `CoverageAuditor.audit_coverage` as a function of the outcomes of its two
external reads (the `terraform state list` command and the ARG inventory
query, the latter `none` exactly when `_query_azure_resources` returned
`None`) and of the already-fetched state detail index: either read failing
yields the structured error and no report is built. -/
def audit_coverage (state_list : CommandResult)
    (azure_query : Option (List AzureResource)) (details : DetailMap)
    (include_non_terraform_resources include_orphaned_terraform_resources : Bool) :
    AuditOutcome :=
  match get_terraform_state_resources state_list with
  | none =>
    .failure (S "Failed to retrieve Terraform state. Ensure workspace is initialized and state exists.")
  | some terraform_resources =>
    match azure_query with
    | none =>
      .failure (S "Failed to query Azure resources. Check Azure authentication and scope parameters.")
    | some azure_resources =>
      let res := match_resources azure_resources details terraform_resources
      .success (generate_report res.matched
        (if include_non_terraform_resources then res.missing else [])
        (if include_orphaned_terraform_resources then res.orphaned else [])
        azure_resources.length terraform_resources.length)

/-! Lemmas about the identifier index and the candidate lists. -/

theorem lookup_cons_isSome {k k' v : PyStr} {acc : List (PyStr × PyStr)}
    (h : (List.lookup k acc).isSome = true) :
    (List.lookup k ((k', v) :: acc)).isSome = true := by
  simp only [List.lookup]
  cases hbe : k == k' <;> simp [h]

theorem lookup_idIndexStep_isSome {k : PyStr} {acc : List (PyStr × PyStr)}
    {p : PyStr × TfDetails} (h : (List.lookup k acc).isSome = true) :
    (List.lookup k (idIndexStep acc p)).isSome = true := by
  unfold idIndexStep
  split
  · exact lookup_cons_isSome h
  · exact h

theorem lookup_foldl_idIndex_isSome (details : DetailMap) (k : PyStr) :
    ∀ acc : List (PyStr × PyStr),
      ((∃ p ∈ details, p.2.azure_resource_id ≠ [] ∧ normId p.2.azure_resource_id = k) ∨
        (List.lookup k acc).isSome = true) →
      (List.lookup k (details.foldl idIndexStep acc)).isSome = true := by
  induction details with
  | nil =>
    intro acc h
    rcases h with ⟨p, hp, _⟩ | h
    · cases hp
    · simpa using h
  | cons p t ih =>
    intro acc h
    simp only [List.foldl_cons]
    apply ih
    rcases h with ⟨q, hq, hcond, hkey⟩ | h
    · rcases List.mem_cons.mp hq with rfl | hq'
      · right
        simp only [idIndexStep, if_pos hcond, hkey]
        simp [List.lookup]
      · exact Or.inl ⟨q, hq', hcond, hkey⟩
    · exact Or.inr (lookup_idIndexStep_isSome h)

theorem lookup_foldl_idIndex_eq_some (details : DetailMap) (k v : PyStr) :
    ∀ acc : List (PyStr × PyStr),
      List.lookup k (details.foldl idIndexStep acc) = some v →
      (∃ p ∈ details, p.2.azure_resource_id ≠ [] ∧ normId p.2.azure_resource_id = k ∧
        p.1 = v) ∨ List.lookup k acc = some v := by
  induction details with
  | nil =>
    intro acc h
    right
    simpa using h
  | cons p t ih =>
    intro acc h
    simp only [List.foldl_cons] at h
    rcases ih _ h with ⟨q, hq, h1, h2, h3⟩ | h'
    · exact Or.inl ⟨q, List.mem_cons_of_mem _ hq, h1, h2, h3⟩
    · by_cases hc : p.2.azure_resource_id ≠ []
      · simp only [idIndexStep, if_pos hc, List.lookup] at h'
        cases hbe : k == normId p.2.azure_resource_id with
        | true =>
          rw [hbe] at h'
          simp only [Option.some.injEq] at h'
          exact Or.inl ⟨p, List.mem_cons_self .., hc, (eq_of_beq hbe).symm, h'⟩
        | false =>
          rw [hbe] at h'
          exact Or.inr h'
      · simp only [idIndexStep, if_neg hc] at h'
        exact Or.inr h'

theorem mem_candidatesFor {details : DetailMap} {nname c : PyStr}
    (h : c ∈ candidatesFor details nname) : c ∈ details.map Prod.fst := by
  simp only [candidatesFor, List.mem_filterMap] at h
  obtain ⟨p, hp, hx⟩ := h
  by_cases hcond : p.2.normalized_name ≠ [] ∧ p.2.normalized_name = nname
  · rw [if_pos hcond] at hx
    cases hx
    exact List.mem_map_of_mem _ hp
  · rw [if_neg hcond] at hx
    cases hx

theorem candidatesFor_empty_name (details : DetailMap) :
    candidatesFor details [] = [] := by
  simp only [candidatesFor]
  rw [List.filterMap_eq_nil_iff]
  intro p _
  rw [if_neg]
  rintro ⟨h1, h2⟩
  exact h1 h2

theorem strategyMatch_mem_keys {details : DetailMap} {r : AzureResource} {a m : PyStr}
    (h : strategyMatch details r = some (a, m)) : a ∈ details.map Prod.fst := by
  unfold strategyMatch at h
  cases hl : List.lookup (normId r.id) (buildIdIndex details) with
  | some a' =>
    simp only [hl, Option.some.injEq, Prod.mk.injEq] at h
    rcases lookup_foldl_idIndex_eq_some details _ a' [] hl with ⟨q, hq, _, _, h3⟩ | hbad
    · exact h.1 ▸ h3 ▸ List.mem_map_of_mem _ hq
    · simp at hbad
  | none =>
    simp only [hl] at h
    cases hc : candidatesFor details
        (normalize_resource_name (extract_resource_name_from_id r.id)) with
    | nil =>
      simp only [hc] at h
      exact Option.noConfusion h
    | cons c0 cs =>
      cases cs with
      | nil =>
        simp only [hc, Option.some.injEq, Prod.mk.injEq] at h
        exact h.1 ▸ mem_candidatesFor (hc ▸ List.mem_cons_self ..)
      | cons c1 rest =>
        simp only [hc] at h
        cases hf : (c0 :: c1 :: rest).find?
            (fun c => strHasSub (pyLower (detailType details c)) (simplifyAzureType r.type)) with
        | some c =>
          simp only [hf] at h
          by_cases hce : c ≠ []
          · rw [if_pos hce] at h
            simp only [Option.some.injEq, Prod.mk.injEq] at h
            exact h.1 ▸ mem_candidatesFor (hc ▸ List.mem_of_find?_eq_some hf)
          · rw [if_neg hce] at h
            simp only [Option.some.injEq, Prod.mk.injEq] at h
            exact h.1 ▸ mem_candidatesFor (hc ▸ List.mem_cons_self ..)
        | none =>
          simp only [hf] at h
          simp only [Option.some.injEq, Prod.mk.injEq] at h
          exact h.1 ▸ mem_candidatesFor (hc ▸ List.mem_cons_self ..)

/-! Lemmas about the matching loop. -/

theorem processOne_length (details : DetailMap) (st : MatchState) (r : AzureResource) :
    ((processOne details st r).matched).length + ((processOne details st r).missing).length =
      st.matched.length + st.missing.length + 1 := by
  unfold processOne
  cases strategyMatch details r with
  | none => simp; omega
  | some am =>
    obtain ⟨a, m⟩ := am
    by_cases ha : a ≠ []
    · simp only []
      rw [if_pos ha]
      simp
      omega
    · simp only []
      rw [if_neg ha]
      simp
      omega

theorem foldl_processOne_length (details : DetailMap) (az : List AzureResource) :
    ∀ st : MatchState,
      ((az.foldl (processOne details) st).matched).length +
        ((az.foldl (processOne details) st).missing).length =
      st.matched.length + st.missing.length + az.length := by
  induction az with
  | nil => intro st; simp
  | cons r t ih =>
    intro st
    simp only [List.foldl_cons, List.length_cons]
    rw [ih]
    have := processOne_length details st r
    omega

theorem setAdd_nodup {s : List PyStr} {a : PyStr} (h : s.Nodup) : (setAdd s a).Nodup := by
  unfold setAdd
  split
  · exact h
  · exact List.nodup_cons.mpr ⟨by assumption, h⟩

theorem mem_setAdd {s : List PyStr} {a x : PyStr} (h : x ∈ setAdd s a) :
    x = a ∨ x ∈ s := by
  unfold setAdd at h
  split at h
  · exact Or.inr h
  · exact List.mem_cons.mp h

theorem processOne_matchedSet_nodup {details : DetailMap} {st : MatchState}
    {r : AzureResource} (h : st.matchedSet.Nodup) :
    (processOne details st r).matchedSet.Nodup := by
  unfold processOne
  cases strategyMatch details r with
  | none => exact h
  | some am =>
    obtain ⟨a, m⟩ := am
    by_cases ha : a ≠ []
    · simp only []
      rw [if_pos ha]
      exact setAdd_nodup h
    · simp only []
      rw [if_neg ha]
      exact h

theorem processOne_matchedSet_subset {details : DetailMap} {st : MatchState}
    {r : AzureResource} (h : ∀ x ∈ st.matchedSet, x ∈ details.map Prod.fst) :
    ∀ x ∈ (processOne details st r).matchedSet, x ∈ details.map Prod.fst := by
  unfold processOne
  cases hs : strategyMatch details r with
  | none => exact h
  | some am =>
    obtain ⟨a, m⟩ := am
    by_cases ha : a ≠ []
    · simp only []
      rw [if_pos ha]
      intro x hx
      rcases mem_setAdd hx with rfl | hx'
      · exact strategyMatch_mem_keys hs
      · exact h x hx'
    · simp only []
      rw [if_neg ha]
      exact h

theorem foldl_processOne_matchedSet_nodup (details : DetailMap) (az : List AzureResource) :
    ∀ st : MatchState, st.matchedSet.Nodup →
      ((az.foldl (processOne details) st).matchedSet).Nodup := by
  induction az with
  | nil => intro st h; exact h
  | cons r t ih =>
    intro st h
    simp only [List.foldl_cons]
    exact ih _ (processOne_matchedSet_nodup h)

theorem foldl_processOne_matchedSet_subset (details : DetailMap) (az : List AzureResource) :
    ∀ st : MatchState, (∀ x ∈ st.matchedSet, x ∈ details.map Prod.fst) →
      ∀ x ∈ (az.foldl (processOne details) st).matchedSet, x ∈ details.map Prod.fst := by
  induction az with
  | nil => intro st h; exact h
  | cons r t ih =>
    intro st h
    simp only [List.foldl_cons]
    exact ih _ (processOne_matchedSet_subset h)

theorem foldl_processOne_matched_mem (details : DetailMap) (az : List AzureResource) :
    ∀ st : MatchState, (∀ e ∈ st.matched, e.terraform_address ∈ details.map Prod.fst) →
      ∀ e ∈ (az.foldl (processOne details) st).matched,
        e.terraform_address ∈ details.map Prod.fst := by
  induction az with
  | nil => intro st h; exact h
  | cons r t ih =>
    intro st h
    simp only [List.foldl_cons]
    apply ih
    unfold processOne
    cases hs : strategyMatch details r with
    | none => exact h
    | some am =>
      obtain ⟨a, m⟩ := am
      by_cases ha : a ≠ []
      · simp only []
        rw [if_pos ha]
        intro e he
        rcases List.mem_append.mp he with he' | he'
        · exact h e he'
        · rcases List.mem_singleton.mp he' with rfl
          exact strategyMatch_mem_keys hs
      · simp only []
        rw [if_neg ha]
        exact h

theorem runMatch_matchedSet_nodup (az : List AzureResource) (details : DetailMap) :
    ((runMatch az details).matchedSet).Nodup :=
  foldl_processOne_matchedSet_nodup details az ⟨[], [], []⟩ List.nodup_nil

theorem runMatch_matchedSet_subset (az : List AzureResource) (details : DetailMap) :
    ∀ x ∈ (runMatch az details).matchedSet, x ∈ details.map Prod.fst :=
  foldl_processOne_matchedSet_subset details az ⟨[], [], []⟩ (by simp)

/-! How one more live resource extends a run. -/

theorem runMatch_append (azure_resources : List AzureResource) (details : DetailMap)
    (r : AzureResource) :
    runMatch (azure_resources ++ [r]) details =
      processOne details (runMatch azure_resources details) r := by
  simp [runMatch, List.foldl_append]

theorem match_resources_append_matched (azure_resources : List AzureResource)
    (details : DetailMap) (addrs : List PyStr) (r : AzureResource) (a m : PyStr)
    (hsm : strategyMatch details r = some (a, m)) (hane : a ≠ []) :
    (match_resources (azure_resources ++ [r]) details addrs).matched =
      (match_resources azure_resources details addrs).matched ++
        [mkMatchedEntry details r a m] ∧
    (match_resources (azure_resources ++ [r]) details addrs).missing =
      (match_resources azure_resources details addrs).missing := by
  have hrun := runMatch_append azure_resources details r
  have hpo : processOne details (runMatch azure_resources details) r =
      { matched := (runMatch azure_resources details).matched ++
          [mkMatchedEntry details r a m]
        missing := (runMatch azure_resources details).missing
        matchedSet := setAdd (runMatch azure_resources details).matchedSet a } := by
    unfold processOne
    rw [hsm]
    simp only []
    rw [if_pos hane]
  constructor <;> simp [match_resources, hrun, hpo]

theorem match_resources_append_missing (azure_resources : List AzureResource)
    (details : DetailMap) (addrs : List PyStr) (r : AzureResource)
    (hsm : strategyMatch details r = none) :
    (match_resources (azure_resources ++ [r]) details addrs).missing =
      (match_resources azure_resources details addrs).missing ++ [mkMissingEntry r] ∧
    (match_resources (azure_resources ++ [r]) details addrs).matched =
      (match_resources azure_resources details addrs).matched := by
  have hrun := runMatch_append azure_resources details r
  have hpo : processOne details (runMatch azure_resources details) r =
      { matched := (runMatch azure_resources details).matched
        missing := (runMatch azure_resources details).missing ++ [mkMissingEntry r]
        matchedSet := (runMatch azure_resources details).matchedSet } := by
    unfold processOne
    rw [hsm]
  constructor <;> simp [match_resources, hrun, hpo]

/-! Concrete inputs for counterexamples and witnesses. -/

/-- Example detail index: one declared address whose recorded provider id is a
storage-account resource id. -/
def exDetails : DetailMap :=
  [(S "azurerm_storage_account.main",
    { terraform_type := S "azurerm_storage_account"
      terraform_name := S "main"
      azure_resource_id :=
        S "/subscriptions/S/resourceGroups/RG/providers/Provider.Storage/storageAccounts/mystorage"
      normalized_name := S "main" })]

/-- Example live resource whose id equals the declared provider id of
`exDetails`. -/
def exLive : AzureResource :=
  { id := S "/subscriptions/S/resourceGroups/RG/providers/Provider.Storage/storageAccounts/mystorage"
    type := S "Provider.Storage/storageAccounts"
    location := S "westus" }

/-- The one declared address of `exDetails`. -/
def exAddrs : List PyStr := [S "azurerm_storage_account.main"]

/-! Claim theorems. -/

/-- C1 counterexample: feeding the same live resource twice makes both
iterations claim the same declared address, so the matched list carries the
address `azurerm_storage_account.main` twice — the declared address is
consumed by two live resources, refuting the no-duplicates invariant. -/
theorem c1_counterexample :
    ((match_resources [exLive, exLive] exDetails exAddrs).matched.map
        (fun e => e.terraform_address)) =
      [S "azurerm_storage_account.main", S "azurerm_storage_account.main"] ∧
    ¬ ((match_resources [exLive, exLive] exDetails exAddrs).matched.map
        (fun e => e.terraform_address)).Nodup := by
  constructor
  · decide
  · decide

/-- C1 (amended): every address carried by an entry of the matched list is one
of the declared addresses, provided the detail index only covers declared
addresses (which `get_state_resource_details` guarantees by skipping addresses
outside its request list); the no-duplicates half of the original claim fails
(see the counterexample): one declared address can be consumed by several live
resources. -/
theorem matched_addresses_subset_declared (azure_resources : List AzureResource)
    (details : DetailMap) (addrs : List PyStr)
    (hkeys : ∀ p ∈ details, p.1 ∈ addrs) :
    ∀ e ∈ (match_resources azure_resources details addrs).matched,
      e.terraform_address ∈ addrs := by
  intro e he
  have he' : e ∈ (azure_resources.foldl (processOne details) ⟨[], [], []⟩).matched := by
    simpa [match_resources, runMatch] using he
  have hmem : e.terraform_address ∈ details.map Prod.fst :=
    foldl_processOne_matched_mem details azure_resources ⟨[], [], []⟩ (by simp) e he'
  obtain ⟨p, hp, hp1⟩ := List.mem_map.mp hmem
  exact hp1 ▸ hkeys p hp

theorem matched_addresses_subset_declared_witness :
    (mkMatchedEntry exDetails exLive (S "azurerm_storage_account.main")
        methodAzureId).terraform_address ∈ exAddrs :=
  matched_addresses_subset_declared [exLive] exDetails exAddrs (by decide)
    (mkMatchedEntry exDetails exLive (S "azurerm_storage_account.main") methodAzureId)
    (by decide)

/-- C2: every live resource yields exactly one result, Matched or Missing, so
the matched and missing lists together are exactly as long as the live
resource list. -/
theorem matched_add_missing_eq_totalLive (azure_resources : List AzureResource)
    (details : DetailMap) (addrs : List PyStr) :
    (match_resources azure_resources details addrs).matched.length +
      (match_resources azure_resources details addrs).missing.length =
      azure_resources.length := by
  have h := foldl_processOne_length details azure_resources ⟨[], [], []⟩
  simpa [match_resources, runMatch] using h

/-- C3 counterexample: with the duplicate-claim input of `c1_counterexample`
the matched list has two entries, the orphaned list none, but only one
declared address was supplied: `len(matched) + len(orphaned)` is 2, not 1. -/
theorem c3_counterexample :
    (match_resources [exLive, exLive] exDetails exAddrs).matched.length = 2 ∧
    (match_resources [exLive, exLive] exDetails exAddrs).orphaned.length = 0 ∧
    exAddrs.length = 1 := by
  refine ⟨?_, ?_, ?_⟩ <;> decide

/-- C3 (amended): counting distinct consumed addresses (the source's
`matched_terraform` set) instead of matched-list entries, the identity holds:
the number of distinct matched addresses plus the orphaned count equals the
number of declared addresses, provided the declared addresses are distinct and
the detail index only covers declared addresses. The original per-entry count
fails when one address is claimed twice (see the counterexample). -/
theorem matchedSet_add_orphaned_eq_totalDeclared (azure_resources : List AzureResource)
    (details : DetailMap) (addrs : List PyStr)
    (hnd : addrs.Nodup) (hkeys : ∀ p ∈ details, p.1 ∈ addrs) :
    (runMatch azure_resources details).matchedSet.length +
      (match_resources azure_resources details addrs).orphaned.length = addrs.length := by
  have hnds : (runMatch azure_resources details).matchedSet.Nodup :=
    runMatch_matchedSet_nodup azure_resources details
  have hsub : ∀ x ∈ (runMatch azure_resources details).matchedSet, x ∈ addrs := by
    intro x hx
    obtain ⟨p, hp, hp1⟩ :=
      List.mem_map.mp (runMatch_matchedSet_subset azure_resources details x hx)
    exact hp1 ▸ hkeys p hp
  have horph : (match_resources azure_resources details addrs).orphaned.length =
      (addrs.filter
        (fun a => a ∉ (runMatch azure_resources details).matchedSet)).length := by
    simp [match_resources]
  have hpart : ∀ l : List PyStr,
      (l.filter (fun a => a ∈ (runMatch azure_resources details).matchedSet)).length +
        (l.filter (fun a => a ∉ (runMatch azure_resources details).matchedSet)).length
        = l.length := by
    intro l
    induction l with
    | nil => simp
    | cons x t ih =>
      by_cases hx : x ∈ (runMatch azure_resources details).matchedSet
      · rw [List.filter_cons, List.filter_cons,
          if_pos (by simpa using hx), if_neg (by simpa using hx)]
        simp only [List.length_cons]
        omega
      · rw [List.filter_cons, List.filter_cons,
          if_neg (by simpa using hx), if_pos (by simpa using hx)]
        simp only [List.length_cons]
        omega
  have hin : (addrs.filter
      (fun a => a ∈ (runMatch azure_resources details).matchedSet)).length =
      (runMatch azure_resources details).matchedSet.length := by
    have hperm : List.Perm
        (addrs.filter (fun a => a ∈ (runMatch azure_resources details).matchedSet))
        (runMatch azure_resources details).matchedSet := by
      rw [List.perm_ext_iff_of_nodup (hnd.filter _) hnds]
      intro x
      simp only [List.mem_filter, decide_eq_true_eq]
      exact ⟨fun h => h.2, fun h => ⟨hsub x h, h⟩⟩
    exact hperm.length_eq
  have := hpart addrs
  omega

theorem matchedSet_add_orphaned_eq_totalDeclared_witness :
    (runMatch [exLive] exDetails).matchedSet.length +
      (match_resources [exLive] exDetails exAddrs).orphaned.length = exAddrs.length :=
  matchedSet_add_orphaned_eq_totalDeclared [exLive] exDetails exAddrs
    (by decide) (by decide)

/-- C7 counterexample: case invariance fails on the program because Python
upper-casing uses Unicode full case mappings. For s = "ß" (code point 223):
`normalize("ß")` drops the non-`[a-z0-9]` character and returns "", while
`"ß".upper()` is "SS", so `normalize("ß".upper())` is "ss". -/
theorem c7_counterexample :
    normalize_resource_name (S "ß") = [] ∧
    normalize_resource_name (pyUpper (S "ß")) = S "ss" ∧
    normalize_resource_name (S "ß") ≠ normalize_resource_name (pyUpper (S "ß")) := by
  refine ⟨?_, ?_, ?_⟩ <;> decide

/-- C7 (amended): the normaliser is total (a Lean function on all of
`PyStr`), keeps only characters in the `[a-z0-9]` ranges, is idempotent, and
maps the empty string to the empty string; case invariance
`normalize(s) = normalize(s.upper())` holds for ASCII strings (every code
point below 128) but not for every string: Python's full case mappings can
expand a filtered-out character into kept ones (see the counterexample). -/
theorem normalize_total_idempotent_case_invariant :
    (∀ s : PyStr, normalize_resource_name (normalize_resource_name s) =
      normalize_resource_name s) ∧
    (∀ s : PyStr, (∀ c ∈ s, c < 128) →
      normalize_resource_name s = normalize_resource_name (pyUpper s)) ∧
    normalize_resource_name [] = [] ∧
    (∀ s : PyStr, ∀ c ∈ normalize_resource_name s, isLowerAlnum c = true) :=
  ⟨normalize_idem, fun s h => (normalize_upper_ascii s h).symm, rfl,
    mem_normalize_isLowerAlnum⟩

theorem normalize_total_idempotent_case_invariant_witness :
    normalize_resource_name (S "Ab-1") = normalize_resource_name (pyUpper (S "Ab-1")) :=
  normalize_total_idempotent_case_invariant.2.1 (S "Ab-1") (by decide)

/-- C4: a live resource whose normalised id (lower-cased, trailing slashes
stripped) equals the normalised non-empty `azure_resource_id` of some declared
entry is always Matched by strategy 1, with method `azure_id` and confidence
`high`, and is never classified Missing — regardless of any relation between
the live and declared names (the theorem places no constraint on them). The
detail keys are assumed non-empty, as the state reader guarantees. -/
theorem identifier_match_authoritative (azure_resources : List AzureResource)
    (details : DetailMap) (addrs : List PyStr) (r : AzureResource)
    (hkeys : ∀ p ∈ details, p.1 ≠ ([] : PyStr))
    (hid : ∃ p ∈ details, p.2.azure_resource_id ≠ [] ∧
      normId p.2.azure_resource_id = normId r.id) :
    ((match_resources (azure_resources ++ [r]) details addrs).matched.map
        (fun e => (e.match_method, e.match_confidence))) =
      ((match_resources azure_resources details addrs).matched.map
        (fun e => (e.match_method, e.match_confidence))) ++
        [(methodAzureId, S "high")] ∧
    (match_resources (azure_resources ++ [r]) details addrs).missing =
      (match_resources azure_resources details addrs).missing := by
  obtain ⟨p, hp, hcond, hkey⟩ := hid
  have hsome : (List.lookup (normId r.id) (buildIdIndex details)).isSome = true :=
    lookup_foldl_idIndex_isSome details _ [] (Or.inl ⟨p, hp, hcond, hkey⟩)
  obtain ⟨a, ha⟩ := Option.isSome_iff_exists.mp hsome
  have hmem : a ∈ details.map Prod.fst := by
    rcases lookup_foldl_idIndex_eq_some details _ a [] ha with ⟨q, hq, _, _, h3⟩ | hbad
    · exact h3 ▸ List.mem_map_of_mem _ hq
    · simp at hbad
  have hane : a ≠ [] := by
    obtain ⟨q, hq, hq1⟩ := List.mem_map.mp hmem
    exact hq1 ▸ hkeys q hq
  have hsm : strategyMatch details r = some (a, methodAzureId) := by
    unfold strategyMatch
    rw [ha]
  obtain ⟨h1, h2⟩ :=
    match_resources_append_matched azure_resources details addrs r a methodAzureId hsm hane
  refine ⟨?_, h2⟩
  rw [h1]
  simp [mkMatchedEntry]

theorem identifier_match_authoritative_witness :
    ((match_resources ([] ++ [exLive]) exDetails exAddrs).matched.map
        (fun e => (e.match_method, e.match_confidence))) =
      ((match_resources [] exDetails exAddrs).matched.map
        (fun e => (e.match_method, e.match_confidence))) ++
        [(methodAzureId, S "high")] ∧
    (match_resources ([] ++ [exLive]) exDetails exAddrs).missing =
      (match_resources [] exDetails exAddrs).missing :=
  identifier_match_authoritative [] exDetails exAddrs exLive (by decide) (by decide)

/-- Two declared entries with the same normalised name `shared` but different
Terraform types (for the C5 witness). Both provider ids are empty, so
strategy 1 cannot fire. -/
def exDetailsShared : DetailMap :=
  [(S "azurerm_virtual_network.two",
    { terraform_type := S "azurerm_virtual_network"
      terraform_name := S "two"
      azure_resource_id := []
      normalized_name := S "shared" }),
   (S "azurerm_storage_account.one",
    { terraform_type := S "azurerm_storage_account"
      terraform_name := S "one"
      azure_resource_id := []
      normalized_name := S "shared" })]

/-- A live resource named `Shared--` (normalising to `shared`) whose type
token `storage` occurs in the second candidate's Terraform type. -/
def exLiveShared : AzureResource :=
  { id := S "/subscriptions/S/providers/Microsoft.Storage/storageAccounts/Shared--"
    type := S "Microsoft.Storage"
    location := S "westus" }

/-- C5: when strategy 1 misses, the name strategy resolves the candidates of
the normalised live name: with several candidates, the first one whose
lower-cased Terraform type contains the live type token (lower-cased,
`microsoft.` and `/` stripped) wins with method `name_with_type_hint`; if none
contains it, the first candidate wins with method `name_ambiguous`; with
exactly one candidate it wins with method `name`. All three carry confidence
`medium`. -/
theorem name_match_tiebreak (azure_resources : List AzureResource)
    (details : DetailMap) (addrs : List PyStr) (r : AzureResource)
    (hkeys : ∀ p ∈ details, p.1 ≠ ([] : PyStr))
    (hmiss : List.lookup (normId r.id) (buildIdIndex details) = none) :
    (∀ c cs c',
      candidatesFor details
        (normalize_resource_name (extract_resource_name_from_id r.id)) = c :: cs →
      cs ≠ [] →
      (c :: cs).find? (fun x => strHasSub (pyLower (detailType details x))
        (simplifyAzureType r.type)) = some c' →
      (match_resources (azure_resources ++ [r]) details addrs).matched =
        (match_resources azure_resources details addrs).matched ++
          [mkMatchedEntry details r c' methodNameTypeHint] ∧
      (mkMatchedEntry details r c' methodNameTypeHint).match_confidence = S "medium") ∧
    (∀ c cs,
      candidatesFor details
        (normalize_resource_name (extract_resource_name_from_id r.id)) = c :: cs →
      cs ≠ [] →
      (c :: cs).find? (fun x => strHasSub (pyLower (detailType details x))
        (simplifyAzureType r.type)) = none →
      (match_resources (azure_resources ++ [r]) details addrs).matched =
        (match_resources azure_resources details addrs).matched ++
          [mkMatchedEntry details r c methodNameAmbiguous] ∧
      (mkMatchedEntry details r c methodNameAmbiguous).match_confidence = S "medium") ∧
    (∀ c,
      candidatesFor details
        (normalize_resource_name (extract_resource_name_from_id r.id)) = [c] →
      (match_resources (azure_resources ++ [r]) details addrs).matched =
        (match_resources azure_resources details addrs).matched ++
          [mkMatchedEntry details r c methodName] ∧
      (mkMatchedEntry details r c methodName).match_confidence = S "medium") := by
  have hne : ∀ c, c ∈ candidatesFor details
      (normalize_resource_name (extract_resource_name_from_id r.id)) → c ≠ [] := by
    intro c hc
    obtain ⟨q, hq, hq1⟩ := List.mem_map.mp (mem_candidatesFor hc)
    exact hq1 ▸ hkeys q hq
  refine ⟨?_, ?_, ?_⟩
  · intro c cs c' hc hcs hf
    have hc'ne : c' ≠ [] := hne c' (hc ▸ List.mem_of_find?_eq_some hf)
    cases cs with
    | nil => exact absurd rfl hcs
    | cons c1 rest =>
      have hsm : strategyMatch details r = some (c', methodNameTypeHint) := by
        unfold strategyMatch
        simp only [hmiss, hc, hf]
        rw [if_pos hc'ne]
      obtain ⟨h1, _⟩ :=
        match_resources_append_matched azure_resources details addrs r c'
          methodNameTypeHint hsm hc'ne
      refine ⟨h1, ?_⟩
      simp only [mkMatchedEntry]
      rw [if_neg (by decide)]
  · intro c cs hc hcs hf
    have hcne : c ≠ [] := hne c (hc ▸ List.mem_cons_self ..)
    cases cs with
    | nil => exact absurd rfl hcs
    | cons c1 rest =>
      have hsm : strategyMatch details r = some (c, methodNameAmbiguous) := by
        unfold strategyMatch
        simp only [hmiss, hc, hf]
      obtain ⟨h1, _⟩ :=
        match_resources_append_matched azure_resources details addrs r c
          methodNameAmbiguous hsm hcne
      refine ⟨h1, ?_⟩
      simp only [mkMatchedEntry]
      rw [if_neg (by decide)]
  · intro c hc
    have hcne : c ≠ [] := hne c (hc ▸ List.mem_cons_self ..)
    have hsm : strategyMatch details r = some (c, methodName) := by
      unfold strategyMatch
      simp only [hmiss, hc]
    obtain ⟨h1, _⟩ :=
      match_resources_append_matched azure_resources details addrs r c methodName hsm hcne
    refine ⟨h1, ?_⟩
    simp only [mkMatchedEntry]
    rw [if_neg (by decide)]

theorem name_match_tiebreak_witness :
    (match_resources ([] ++ [exLiveShared]) exDetailsShared []).matched =
      (match_resources [] exDetailsShared []).matched ++
        [mkMatchedEntry exDetailsShared exLiveShared
          (S "azurerm_storage_account.one") methodNameTypeHint] ∧
    (mkMatchedEntry exDetailsShared exLiveShared
        (S "azurerm_storage_account.one") methodNameTypeHint).match_confidence =
      S "medium" :=
  (name_match_tiebreak [] exDetailsShared [] exLiveShared (by decide) (by decide)).1
    (S "azurerm_virtual_network.two") [S "azurerm_storage_account.one"]
    (S "azurerm_storage_account.one") (by decide) (by decide) (by decide)

/-- A detail index whose one entry has the non-empty provider id `"/"`,
which normalises (lower-case, strip trailing slashes) to the empty string. -/
def exDetailsSlashId : DetailMap :=
  [(S "a.b",
    { terraform_type := S "a"
      terraform_name := S "b"
      azure_resource_id := S "/"
      normalized_name := S "b" })]

/-- A live resource with an empty id. -/
def exLiveEmptyId : AzureResource :=
  { id := []
    type := []
    location := S "x" }

/-- C10 counterexample: a declared entry whose provider id `"/"` is non-empty
(so it IS inserted into the identifier index) but normalises to the empty
string makes the empty-id live resource match via `azure_id` instead of being
classified Missing. -/
theorem c10_counterexample :
    (match_resources [exLiveEmptyId] exDetailsSlashId [S "a.b"]).missing = [] ∧
    (match_resources [exLiveEmptyId] exDetailsSlashId [S "a.b"]).matched.map
      (fun e => e.match_method) = [methodAzureId] := by
  constructor
  · decide
  · decide

/-- C10 (amended): a live resource with an empty id is classified Missing,
provided additionally that no declared entry's non-empty provider id
normalises to the empty string (ids consisting only of slashes are the one
exception, as the counterexample shows). Entries with an empty provider id
are never in the identifier index, entries with an empty normalised name are
never in the name index, and the empty-id resource's extracted name is empty,
so neither strategy fires. -/
theorem empty_id_yields_missing (azure_resources : List AzureResource)
    (details : DetailMap) (addrs : List PyStr) (r : AzureResource)
    (hids : ∀ p ∈ details, p.2.azure_resource_id ≠ [] →
      normId p.2.azure_resource_id ≠ [])
    (hr : r.id = []) :
    (match_resources (azure_resources ++ [r]) details addrs).missing =
      (match_resources azure_resources details addrs).missing ++ [mkMissingEntry r] ∧
    (match_resources (azure_resources ++ [r]) details addrs).matched =
      (match_resources azure_resources details addrs).matched := by
  have hnid : normId r.id = [] := by rw [hr]; rfl
  have hnone : strategyMatch details r = none := by
    have hl : List.lookup (normId r.id) (buildIdIndex details) = none := by
      cases hv : List.lookup (normId r.id) (buildIdIndex details) with
      | none => rfl
      | some v =>
        rcases lookup_foldl_idIndex_eq_some details _ v [] hv with
          ⟨p, hp, h1, h2, _⟩ | hbad
        · exact absurd (h2.trans hnid) (hids p hp h1)
        · simp at hbad
    have hname : normalize_resource_name (extract_resource_name_from_id r.id) = [] := by
      rw [hr]; rfl
    unfold strategyMatch
    rw [hl, hname, candidatesFor_empty_name]
  exact match_resources_append_missing azure_resources details addrs r hnone

theorem empty_id_yields_missing_witness :
    (match_resources ([] ++ [exLiveEmptyId]) exDetails exAddrs).missing =
      (match_resources [] exDetails exAddrs).missing ++ [mkMissingEntry exLiveEmptyId] ∧
    (match_resources ([] ++ [exLiveEmptyId]) exDetails exAddrs).matched =
      (match_resources [] exDetails exAddrs).matched :=
  empty_id_yields_missing [] exDetails exAddrs exLiveEmptyId (by decide) (by decide)

/-- Is an audit outcome the error dictionary? -/
def AuditOutcome.isError : AuditOutcome → Bool
  | .failure _ => true
  | .success _ => false

theorem round2_nonneg {q : ℚ} (h : 0 ≤ q) : 0 ≤ round2 q := by
  unfold round2
  have h1 : (0 : ℤ) ≤ round (q * 100) := by
    rw [round_eq]
    exact Int.le_floor.mpr (by push_cast; linarith)
  have : (0 : ℚ) ≤ (round (q * 100) : ℤ) := by exact_mod_cast h1
  positivity

theorem round2_le_hundred {q : ℚ} (h : q ≤ 100) : round2 q ≤ 100 := by
  unfold round2
  have h1 : round (q * 100) ≤ 10000 := by
    rw [round_eq]
    have hlt : ⌊q * 100 + 1 / 2⌋ < 10001 := Int.floor_lt.mpr (by push_cast; linarith)
    omega
  rw [div_le_iff₀ (by norm_num : (0 : ℚ) < 100)]
  have : ((round (q * 100) : ℤ) : ℚ) ≤ (10000 : ℚ) := by exact_mod_cast h1
  linarith

/-- C6: the report's coverage percentage is `round(matched/totalLive*100, 2)`
when there are live resources, exactly 0 when there are none, and always
within `[0, 100]` (given `matched ≤ totalLive`, which every run satisfies by
the C2 partition). -/
theorem coverage_percentage_spec (matched : List MatchedEntry)
    (missing : List MissingEntry) (orphaned : List OrphanedEntry)
    (total_azure total_terraform : Nat)
    (hle : matched.length ≤ total_azure) :
    (0 < total_azure →
      (generate_report matched missing orphaned total_azure
        total_terraform).summary.coverage_percentage =
        round2 ((matched.length : ℚ) / (total_azure : ℚ) * 100)) ∧
    (total_azure = 0 →
      (generate_report matched missing orphaned total_azure
        total_terraform).summary.coverage_percentage = 0) ∧
    0 ≤ (generate_report matched missing orphaned total_azure
        total_terraform).summary.coverage_percentage ∧
    (generate_report matched missing orphaned total_azure
        total_terraform).summary.coverage_percentage ≤ 100 := by
  have hcov : (generate_report matched missing orphaned total_azure
      total_terraform).summary.coverage_percentage =
      round2 (if total_azure > 0 then (matched.length : ℚ) / (total_azure : ℚ) * 100
        else 0) := rfl
  by_cases ht : 0 < total_azure
  · rw [hcov, if_pos ht]
    have htq : (0 : ℚ) < (total_azure : ℚ) := by exact_mod_cast ht
    have h0 : (0 : ℚ) ≤ (matched.length : ℚ) / (total_azure : ℚ) * 100 := by positivity
    have h100 : (matched.length : ℚ) / (total_azure : ℚ) * 100 ≤ 100 := by
      rw [div_mul_eq_mul_div, div_le_iff₀ htq]
      have hlq : (matched.length : ℚ) ≤ (total_azure : ℚ) := by exact_mod_cast hle
      linarith
    exact ⟨fun _ => rfl, fun hz => absurd hz (by omega),
      round2_nonneg h0, round2_le_hundred h100⟩
  · have hz : round2 0 = 0 := by
      unfold round2
      rw [zero_mul, round_zero]
      simp
    rw [hcov, if_neg ht, hz]
    exact ⟨fun hp => absurd hp ht, fun _ => rfl, le_refl 0, by norm_num⟩

/-- A matched entry for report-level claims. -/
def exMatched : MatchedEntry :=
  mkMatchedEntry exDetails exLive (S "azurerm_storage_account.main") methodAzureId

/-- An orphaned entry for report-level claims. -/
def exOrphan : OrphanedEntry := mkOrphanedEntry (S "c.d")

theorem coverage_percentage_spec_witness :
    (0 < 2 →
      (generate_report [exMatched] [] [] 2 1).summary.coverage_percentage =
        round2 (([exMatched].length : ℚ) / ((2 : Nat) : ℚ) * 100)) ∧
    (2 = 0 →
      (generate_report [exMatched] [] [] 2 1).summary.coverage_percentage = 0) ∧
    0 ≤ (generate_report [exMatched] [] [] 2 1).summary.coverage_percentage ∧
    (generate_report [exMatched] [] [] 2 1).summary.coverage_percentage ≤ 100 :=
  coverage_percentage_spec [exMatched] [] [] 2 1 (by decide)

/-- C8: if the state listing exits non-zero, or the inventory query fails,
`audit_coverage` returns the structured error outcome: no report is built
from a hard failure of either external read. -/
theorem hard_failure_returns_error (state_list : CommandResult)
    (azure_query : Option (List AzureResource)) (details : DetailMap)
    (include_non_terraform_resources include_orphaned_terraform_resources : Bool)
    (h : state_list.exit_code ≠ 0 ∨ azure_query = none) :
    (audit_coverage state_list azure_query details include_non_terraform_resources
      include_orphaned_terraform_resources).isError = true := by
  unfold audit_coverage
  rcases h with h | h
  · have hs : get_terraform_state_resources state_list = none := by
      unfold get_terraform_state_resources
      rw [if_pos h]
    rw [hs]
    rfl
  · cases hg : get_terraform_state_resources state_list with
    | none => rfl
    | some tf =>
      rw [h]
      rfl

theorem hard_failure_returns_error_witness :
    (audit_coverage ⟨1, [], []⟩ (some []) [] true true).isError = true :=
  hard_failure_returns_error ⟨1, [], []⟩ (some []) [] true true (Or.inl (by decide))

/-- C9 counterexample: one matched live resource out of one (coverage exactly
100) with one orphaned Terraform resource: the recommendations list carries
both the orphaned-review guidance and the all-managed guidance, so the
all-managed recommendation is not mutually exclusive with the orphaned-review
one. -/
theorem c9_counterexample :
    (generate_report [exMatched] [] [exOrphan] 1 2).summary.coverage_percentage = 100 ∧
    (generate_report [exMatched] [] [exOrphan] 1 2).recommendations =
      [Recommendation.reviewOrphaned 1, Recommendation.allManaged] := by
  constructor
  · simp [generate_report, round2, round_eq]
    norm_num
  · simp [generate_report]

/-- C9 (amended): at coverage == 100 the all-managed guidance appears, and
(under the run invariant `len(matched) + len(missing) = totalLive`) the
missing-export and manual-review recommendations are absent; the
orphaned-review recommendation is NOT excluded and appears alongside whenever
orphaned entries exist (see the counterexample). -/
theorem full_coverage_recommendations (matched : List MatchedEntry)
    (missing : List MissingEntry) (orphaned : List OrphanedEntry)
    (total_azure total_terraform : Nat)
    (hta : 0 < total_azure)
    (hpipe : matched.length + missing.length = total_azure)
    (hcov : matched.length = total_azure) :
    (generate_report matched missing orphaned total_azure
      total_terraform).recommendations =
      (if orphaned ≠ [] then [Recommendation.reviewOrphaned orphaned.length]
        else []) ++ [Recommendation.allManaged] := by
  have hmiss : missing = [] := by
    have h0 : missing.length = 0 := by omega
    exact List.eq_nil_of_length_eq_zero h0
  subst hmiss
  have htq : (0 : ℚ) < (total_azure : ℚ) := by exact_mod_cast hta
  have hc : (matched.length : ℚ) / (total_azure : ℚ) * 100 = 100 := by
    rw [hcov]
    field_simp
  simp only [generate_report]
  rw [if_pos hta, hc]
  simp

theorem full_coverage_recommendations_witness :
    (generate_report [exMatched] [] [exOrphan] 1 2).recommendations =
      (if [exOrphan] ≠ [] then [Recommendation.reviewOrphaned [exOrphan].length]
        else []) ++ [Recommendation.allManaged] :=
  full_coverage_recommendations [exMatched] [] [exOrphan] 1 2
    (by decide) (by decide) (by decide)

end CoverageAuditor
